import Mathlib

/-!
Verification of the COZI_scrape data pipeline (`run_scrape.py`).

Modelling conventions used throughout:
* a calendar timestamp is an integer count of seconds since 1899-12-30
  (the Excel epoch used by the air-quality files);
* a measurement value is a rational number; a missing value (pandas NaN /
  Python None) is `none : Option ℚ`;
* a pandas DataFrame is a list of rows.
-/

namespace Cozi

/-- Canonical measurement columns of the merged wide table in the cleaning
stage.  `wind_speed` has no threshold entry and is left unfiltered by the
quality filter. -/
inductive Col
  | temperature
  | rh
  | no
  | no2
  | nox
  | co
  | co2
  | ch4
  | wind_speed
  deriving DecidableEq, Repr

/-- One row of the merged wide table in the cleaning stage: a timestamp in
seconds since 1899-12-30 and one optional rational per canonical column. -/
structure Row where
  ts : ℤ
  cells : Col → Option ℚ

/-- Modelled from the spec: the hardcoded threshold table of the quality
filter (spec 4.5), absent from `src/run_scrape.py` (only the merge step of
`main` is in src).  For each thresholded column, a lower bound and an
optional upper bound (`none` meaning plus infinity).  Columns without an
entry are unfiltered. -/
def colBounds : Col → Option (ℚ × Option ℚ)
  | .temperature => some (-1000, none)
  | .rh => some (0, none)
  | .no => some (0, some 200)
  | .no2 => some (0, some 200)
  | .nox => some (0, some 200)
  | .co => some (0, some 400)
  | .co2 => some (0, some 550)
  | .ch4 => some (0, some 100)
  | .wind_speed => none

/-- Modelled from the spec: a value is invalid when it lies at or beyond a
bound of its column (value ≤ lower OR upper ≤ value, both ends inclusive of
invalidity, spec 4.5). -/
def isInvalid (c : Col) (x : ℚ) : Bool :=
  match colBounds c with
  | none => false
  | some (lo, hi) =>
      decide (x ≤ lo) ||
        (match hi with
         | some u => decide (u ≤ x)
         | none => false)

/-- Modelled from the spec: the quality filter on one cell — an invalid
value is replaced by the missing-value marker, a missing value stays
missing. -/
def filterCell (c : Col) (v : Option ℚ) : Option ℚ :=
  match v with
  | none => none
  | some x => if isInvalid c x then none else some x

/-- Modelled from the spec: the quality filter applied to every cell of a
row; the timestamp is untouched. -/
def filterRow (r : Row) : Row :=
  ⟨r.ts, fun c => filterCell c (r.cells c)⟩

/-- Modelled from the spec: the quality filter applied to a whole table. -/
def filterTable (t : List Row) : List Row :=
  t.map filterRow

/-- Modelled from the spec: the minute-aligned start of the 1-minute bucket
containing a timestamp (`/` on ℤ is Euclidean division, which is floor
division for the positive divisor 60). -/
def bucketStart (t : ℤ) : ℤ :=
  60 * (t / 60)

/-- Modelled from the spec: the input rows contributing to the bucket that
starts at `b`. -/
def contributors (t : List Row) (b : ℤ) : List Row :=
  t.filter (fun r => bucketStart r.ts == b)

/-- Modelled from the spec: the arithmetic mean of the non-missing values of
column `c` across a group of rows; `none` when every contributing value is
missing. -/
def colMean (rs : List Row) (c : Col) : Option ℚ :=
  let vs := rs.filterMap (fun r => r.cells c)
  if vs.isEmpty then none else some (vs.sum / vs.length)

/-- Modelled from the spec: the single output row of the bucket starting at
`b`: its timestamp is the bucket start and each cell is the mean of the
non-missing contributions. -/
def bucketRow (t : List Row) (b : ℤ) : Row :=
  ⟨b, fun c => colMean (contributors t b) c⟩

/-- Modelled from the spec: the sparse 1-minute resampler (spec 4.5) —
one output row per bucket that contains at least one input timestamp,
averaging each column over the bucket and ignoring missing values. -/
def resample (t : List Row) : List Row :=
  ((t.map (fun r => bucketStart r.ts)).dedup).map (bucketRow t)

/-- First second of the quarantine window 2021-02-15 (day 44242 since
1899-12-30). -/
def quarantineLo : ℤ := 44242 * 86400

/-- First second after the quarantine window, 2021-04-01 (day 44287 since
1899-12-30). -/
def quarantineHi : ℤ := 44287 * 86400

/-- Modelled from the spec: the hardcoded sensor-malfunction quarantine
(spec 4.5) — rows with timestamp in [2021-02-15, 2021-04-01) get their CH4
and CO2 cells forced to missing. -/
def quarantineRow (r : Row) : Row :=
  if quarantineLo ≤ r.ts ∧ r.ts < quarantineHi then
    ⟨r.ts, fun c =>
      match c with
      | .co2 => none
      | .ch4 => none
      | c => r.cells c⟩
  else r

/-- Modelled from the spec: the quarantine applied to a whole table. -/
def quarantine (t : List Row) : List Row :=
  t.map quarantineRow

/-- Modelled from the spec: the full cleaning stage (spec 4.5) producing
the CleanedTable from the MergedTable: threshold filter, then 1-minute
resampling, then the CH4/CO2 quarantine. -/
def cleanedTable (t : List Row) : List Row :=
  quarantine (resample (filterTable t))

/-!
## Excel timestamp conversion (`convert_excel_time`, run_scrape.py 140-153)

The source computes `pd.to_datetime("1899-12-30") + pd.to_timedelta(x, "D")`
and then rounds to the nearest second with `.dt.round("S")`.  With
timestamps as seconds since 1899-12-30, adding `x` days lands at the real
point `x * 86400` seconds, and `.round("S")` picks the nearest integer
second, rounding ties to the even second (pandas round-half-even).
-/

/-- Round-half-even on rationals, the tie-breaking rule of pandas
`Series.dt.round`. -/
def roundHalfEven (y : ℚ) : ℤ :=
  if y - ⌊y⌋ = 1 / 2 then (if ⌊y⌋ % 2 = 0 then ⌊y⌋ else ⌊y⌋ + 1)
  else round y

/-- `convert_excel_time` (run_scrape.py 140-153): an Excel day count
(days since 1899-12-30, fractional part the time of day) becomes the
calendar timestamp, in seconds since 1899-12-30, nearest to it. -/
def convert_excel_time (x : ℚ) : ℤ :=
  roundHalfEven (x * 86400)

/-- The inverse direction used by the round-trip property: a calendar
timestamp in seconds since 1899-12-30, expressed as an Excel day count. -/
def excelDayCount (s : ℤ) : ℚ :=
  (s : ℚ) / 86400

/-!
## Meteorological decoder (`load_met_file`, run_scrape.py 321-371)

`Importer(filename); importer.import_data()` is guarded by a `try/except`
that catches only `FileNotFoundError`.  Each imported record is projected
to the keys of the field map, and the conversion loop then subscripts the
projected dict at the raw names `timestamp`, `temperature_outside` and
`wind_speed`, converting a value only when it is not `None`.  `MetFile`
abstracts what the external `weatherlink` importer does on one file:
the file is absent (`missing`, the importer raises `FileNotFoundError`),
the importer rejects its structure (`corrupt`, it raises some other
exception), or it yields a list of records (`ok`).
-/

/-- Raw field names of a weatherlink record that the pipeline touches;
`extra` stands for any further projected measurement field. -/
inductive RawField
  | timestamp
  | temperature_outside
  | wind_speed
  | extra
  deriving DecidableEq, Repr

/-- One meteorological record: raw device timestamp (converted in place by
the conversion loop) and measurement fields, each possibly `None`. -/
structure MetRecord where
  timestamp : Option ℤ
  temperature_outside : Option ℚ
  wind_speed : Option ℚ
  extra : Option ℚ
  deriving DecidableEq, Repr

/-- Python exceptions that `load_met_file` can let escape. -/
inductive PyExn
  | importError
  | keyError
  deriving DecidableEq, Repr

/-- Outcome of the external weatherlink importer on one file. -/
inductive MetFile
  | missing
  | corrupt
  | ok (records : List MetRecord)
  deriving DecidableEq, Repr

/-- The dict comprehension `{field: row[field] for field in fields.keys()}`
(run_scrape.py 347): fields outside the map's keys are absent from the
projected record, modelled as missing cells. -/
def projRecord (keys : List RawField) (r : MetRecord) : MetRecord :=
  ⟨if RawField.timestamp ∈ keys then r.timestamp else none,
   if RawField.temperature_outside ∈ keys then r.temperature_outside else none,
   if RawField.wind_speed ∈ keys then r.wind_speed else none,
   if RawField.extra ∈ keys then r.extra else none⟩

/-- One iteration of the conversion loop (run_scrape.py 350-356): each of
the three convertible fields is rewritten by its conversion exactly when it
is not `None`.  The conversions themselves (`convert_timestamp_to_datetime`,
`convert_fahrenheit_to_celsius`,
`convert_miles_per_hour_to_meters_per_second`) live in the external
`weatherlink` package, so they are parameters here. -/
def convertRecord (fTs : ℤ → ℤ) (fTemp fWind : ℚ → ℚ) (r : MetRecord) :
    MetRecord :=
  ⟨match r.timestamp with
   | none => none
   | some v => some (fTs v),
   match r.temperature_outside with
   | none => none
   | some v => some (fTemp v),
   match r.wind_speed with
   | none => none
   | some v => some (fWind v),
   r.extra⟩

/-- The conversion loop over all projected records of a file.  The loop
subscripts each record dict at `timestamp`, `temperature_outside` and
`wind_speed`; when the field map lacks one of these keys the projected dict
lacks it too, and the first iteration raises `KeyError`.  The loop body
never runs on a file with zero records, so no `KeyError` can arise there. -/
def convertLoop (keys : List RawField) (fTs : ℤ → ℤ) (fTemp fWind : ℚ → ℚ)
    (rs : List MetRecord) : Except PyExn (List MetRecord) :=
  if rs.isEmpty then .ok (rs.map (convertRecord fTs fTemp fWind))
  else if RawField.timestamp ∈ keys ∧ RawField.temperature_outside ∈ keys ∧
      RawField.wind_speed ∈ keys then
    .ok (rs.map (convertRecord fTs fTemp fWind))
  else .error .keyError

/-- `load_met_file` (run_scrape.py 321-371).  Only `FileNotFoundError` from
the importer is caught (logged, `None` returned); any other importer
exception escapes, as does a `KeyError` from the conversion loop.  Building
the DataFrame from a list of dicts and renaming its columns cannot fail and
do not change row contents, so they add nothing here. -/
def load_met_file (keys : List RawField) (fTs : ℤ → ℤ) (fTemp fWind : ℚ → ℚ)
    (f : MetFile) : Except PyExn (Option (List MetRecord)) :=
  match f with
  | .missing => .ok none
  | .corrupt => .error .importError
  | .ok records =>
      (convertLoop keys fTs fTemp fWind (records.map (projRecord keys))).map
        some

/-!
## Air-quality rows and dataset aggregation (`load_dataset`, 200-258)
-/

/-- One air-quality row after `load_airquality_file`: converted timestamp
and measurement columns (two representative ones suffice for the claims). -/
structure AqRecord where
  timestamp : Option ℤ
  no : Option ℚ
  co : Option ℚ
  deriving DecidableEq, Repr

/-- `pd.DataFrame.dropna(how='all')` row test for a meteorological table:
true when every column of the row, the timestamp included, is missing. -/
def metAllNa (r : MetRecord) : Bool :=
  r.timestamp == none && r.temperature_outside == none &&
    r.wind_speed == none && r.extra == none

/-- `pd.DataFrame.dropna(how='all')` row test for an air-quality table:
true when every column of the row, the timestamp included, is missing. -/
def aqAllNa (r : AqRecord) : Bool :=
  r.timestamp == none && r.no == none && r.co == none

/-- The aggregation tail of `load_dataset` (run_scrape.py 243-258), generic
in the row type: the per-file results (`none` when the load function
skipped the file) are collected, and with at least one loaded table the
concatenation is returned with its all-missing rows dropped
(`dropna(how='all')`); with zero loaded tables the result is `None`. -/
def load_dataset {α : Type} (allNa : α → Bool)
    (decoded : List (Option (List α))) : Option (List α) :=
  let dfs := decoded.filterMap id
  if dfs.isEmpty then none
  else some (dfs.flatten.filter (fun r => !allNa r))

/-- `load_dataset` specialised to the meteorological loader, with the
per-file importer outcomes explicit and per-file exceptions propagating:
the source loop `for fn in os.listdir(tempdir): df = load_function(...)`
has no handler, so an exception from `load_met_file` escapes aggregation. -/
def load_dataset_met (keys : List RawField) (fTs : ℤ → ℤ)
    (fTemp fWind : ℚ → ℚ) (files : List MetFile) :
    Except PyExn (Option (List MetRecord)) := do
  let tables ← files.mapM (load_met_file keys fTs fTemp fWind)
  pure (load_dataset metAllNa tables)

/-!
## Outer merge (`main`, run_scrape.py 94-95)

`pd.merge(met_data, aq_data, on="timestamp", how="outer")`: every left row
is paired with every right row sharing its timestamp; a left row with no
match keeps its own columns and gets missing markers for the right-hand
columns; right rows matched by no left row are appended with missing
markers for the left-hand columns.
-/

/-- One row of the merged table: the join key and both column groups. -/
structure MergedRow where
  ts : Option ℤ
  temperature_outside : Option ℚ
  wind_speed : Option ℚ
  extra : Option ℚ
  no : Option ℚ
  co : Option ℚ
  deriving DecidableEq, Repr

/-- A matched pair of rows merged on their (equal) timestamps. -/
def mergedOfPair (m : MetRecord) (a : AqRecord) : MergedRow :=
  ⟨m.timestamp, m.temperature_outside, m.wind_speed, m.extra, a.no, a.co⟩

/-- A left-only row: air-quality columns filled with missing markers. -/
def mergedOfMet (m : MetRecord) : MergedRow :=
  ⟨m.timestamp, m.temperature_outside, m.wind_speed, m.extra, none, none⟩

/-- A right-only row: meteorological columns filled with missing markers. -/
def mergedOfAq (a : AqRecord) : MergedRow :=
  ⟨a.timestamp, none, none, none, a.no, a.co⟩

/-- The merged rows produced by one left (meteorological) row: one merged
row per right row sharing its timestamp, or a single right-padded row when
no right row matches. -/
def leftMatches (aqs : List AqRecord) (m : MetRecord) : List MergedRow :=
  if (aqs.filter (fun a => a.timestamp == m.timestamp)).isEmpty then
    [mergedOfMet m]
  else (aqs.filter (fun a => a.timestamp == m.timestamp)).map (mergedOfPair m)

/-- The full outer join on `timestamp` of run_scrape.py line 95: every
left row produces its `leftMatches`, and the right rows matched by no left
row are appended left-padded. -/
def pdMergeOuter (mts : List MetRecord) (aqs : List AqRecord) :
    List MergedRow :=
  mts.flatMap (leftMatches aqs) ++
  ((aqs.filter fun a =>
      mts.all fun m => !(m.timestamp == a.timestamp)).map mergedOfAq)

/-!
## Top level (`main`, run_scrape.py 85-103)
-/

/-- How a run ends after both `load_dataset` calls: `emptyDataset` when a
kind produced no usable data (the run terminates before the merge and
writes nothing), `wrote` with the merged table otherwise. -/
inductive RunOutcome
  | emptyDataset
  | wrote (t : List MergedRow)
  deriving DecidableEq, Repr

/-- The post-configuration behaviour of `main` (run_scrape.py 85-103),
with the per-file decode results of the two dataset kinds as inputs: a
`None` from either `load_dataset` terminates the run (`EmptyDataset`,
met checked first as in the source); otherwise the outer merge is written
out. -/
def runPipeline (metDecoded : List (Option (List MetRecord)))
    (aqDecoded : List (Option (List AqRecord))) : RunOutcome :=
  match load_dataset metAllNa metDecoded, load_dataset aqAllNa aqDecoded with
  | none, _ => .emptyDataset
  | some _, none => .emptyDataset
  | some m, some a => .wrote (pdMergeOuter m a)

/-- Whether a run outcome wrote an output file. -/
def wroteOutput : RunOutcome → Bool
  | .emptyDataset => false
  | .wrote _ => true

/-!
## Validity predicates and concrete example tables used by the claims
-/

/-- A value is strictly inside the threshold bounds of its column (there is
nothing to require of an unthresholded column). -/
def InBounds (c : Col) (x : ℚ) : Prop :=
  ∀ lo ho, colBounds c = some (lo, ho) → lo < x ∧ ∀ u, ho = some u → x < u

/-- A cell is missing or holds a value strictly inside its column's
threshold bounds. -/
def ValidCell (c : Col) (v : Option ℚ) : Prop :=
  ∀ x, v = some x → InBounds c x

/-- Example input of claim C1: one row whose NO cell is 250 ppbV, above
the 200 upper bound. -/
def exC1 : List Row :=
  [⟨0, fun c => match c with | .no => some 250 | _ => none⟩]

/-- Witness input for claim C1: one row with a valid temperature. -/
def exW1 : List Row :=
  [⟨0, fun c => match c with | .temperature => some 10 | _ => none⟩]

/-- First example row of claim C2: 08:00:00 with temperature 10. -/
def rowA2 : Row :=
  ⟨28800, fun c => match c with | .temperature => some 10 | _ => none⟩

/-- Second example row of claim C2: 08:00:30 with temperature 12. -/
def rowB2 : Row :=
  ⟨28830, fun c => match c with | .temperature => some 12 | _ => none⟩

/-- Example input of claim C2: two rows in the same 08:00 bucket. -/
def exC2 : List Row := [rowA2, rowB2]

/-- Example row of claim C3: 2021-03-01 00:00 (day 44256 since 1899-12-30)
with CH4 = 1.5 and CO2 = 400. -/
def exC3row : Row :=
  ⟨44256 * 86400, fun c =>
    match c with
    | .ch4 => some (3 / 2)
    | .co2 => some 400
    | _ => none⟩

/-- Example input of claim C3. -/
def exC3 : List Row := [exC3row]

/-- A field map holding all the raw fields the pipeline needs. -/
def stdKeys : List RawField :=
  [.timestamp, .temperature_outside, .wind_speed, .extra]

/-- A fully populated meteorological record. -/
def recA : MetRecord := ⟨some 0, some 50, some 5, none⟩

/-- An air-quality row with a timestamp and no measurements. -/
def rTsOnly : AqRecord := ⟨some 0, none, none⟩

/-- An air-quality row with a measurement and no timestamp. -/
def rNoTs : AqRecord := ⟨none, some 5, none⟩

lemma abs_roundHalfEven_sub (y : ℚ) : |(roundHalfEven y : ℚ) - y| ≤ 1 / 2 := by
  unfold roundHalfEven
  split
  · rename_i ht
    split
    · rw [abs_sub_comm]
      rw [show y - (⌊y⌋ : ℚ) = 1 / 2 from ht]
      rw [abs_of_pos (by norm_num : (0 : ℚ) < 1 / 2)]
    · push_cast
      rw [show (⌊y⌋ : ℚ) + 1 - y = 1 / 2 by linarith]
      rw [abs_of_pos (by norm_num : (0 : ℚ) < 1 / 2)]
  · rw [abs_sub_comm]
    exact abs_sub_round y

/-- Claim C4: converting an Excel day count to a calendar timestamp rounds
to the nearest second, and converting the result back to a day count
recovers the input to within one second (1/86400 of a day). -/
theorem c4_excel_roundtrip (x : ℚ) :
    |excelDayCount (convert_excel_time x) - x| ≤ 1 / 86400 := by
  have h := abs_roundHalfEven_sub (x * 86400)
  unfold excelDayCount convert_excel_time
  have h86 : (0 : ℚ) < 86400 := by norm_num
  rw [show (roundHalfEven (x * 86400) : ℚ) / 86400 - x =
      ((roundHalfEven (x * 86400) : ℚ) - x * 86400) / 86400 by ring]
  rw [abs_div, abs_of_pos h86]
  rw [div_le_div_iff₀ h86 h86]
  nlinarith [abs_nonneg ((roundHalfEven (x * 86400) : ℚ) - x * 86400)]

/-- Claim C9: each per-record conversion is applied to a field exactly when
its raw value is not missing; a missing value stays missing. -/
theorem c9_convert_guarded (fTs : ℤ → ℤ) (fTemp fWind : ℚ → ℚ)
    (r : MetRecord) :
    (convertRecord fTs fTemp fWind r).timestamp = r.timestamp.map fTs ∧
    (convertRecord fTs fTemp fWind r).temperature_outside =
      r.temperature_outside.map fTemp ∧
    (convertRecord fTs fTemp fWind r).wind_speed = r.wind_speed.map fWind ∧
    (convertRecord fTs fTemp fWind r).extra = r.extra := by
  obtain ⟨t, te, w, e⟩ := r
  refine ⟨?_, ?_, ?_, rfl⟩
  · cases t <;> rfl
  · cases te <;> rfl
  · cases w <;> rfl

/-- Claim C6 (code evaluation at the failing input): with one valid file
and one file the external importer rejects, the importer's exception
escapes `load_dataset`; only a missing file is contained and skipped. -/
theorem c6_corrupt_file_aborts_run :
    load_dataset_met stdKeys id id id [MetFile.ok [recA], MetFile.corrupt] =
      Except.error PyExn.importError ∧
    load_dataset_met stdKeys id id id [MetFile.ok [recA], MetFile.missing] =
      Except.ok (some [recA]) :=
  ⟨rfl, rfl⟩

/-- Claim C10: with a field map lacking one of the three required raw keys,
a meteorological file that decodes to at least one record makes the
conversion loop raise an uncaught KeyError, which aborts the whole
aggregation instead of being skipped. -/
theorem c10_missing_key_aborts (keys : List RawField) (fTs : ℤ → ℤ)
    (fTemp fWind : ℚ → ℚ) (rs : List MetRecord) (files : List MetFile)
    (hk : ¬(RawField.timestamp ∈ keys ∧ RawField.temperature_outside ∈ keys ∧
        RawField.wind_speed ∈ keys))
    (hne : rs.isEmpty = false) :
    load_met_file keys fTs fTemp fWind (MetFile.ok rs) =
      Except.error PyExn.keyError ∧
    load_dataset_met keys fTs fTemp fWind (MetFile.ok rs :: files) =
      Except.error PyExn.keyError := by
  have hmap : (rs.map (projRecord keys)).isEmpty = false := by
    cases rs with
    | nil => simp at hne
    | cons a l => simp [List.isEmpty]
  have h1 : load_met_file keys fTs fTemp fWind (MetFile.ok rs) =
      Except.error PyExn.keyError := by
    simp [load_met_file, convertLoop, hmap, hk, Except.map]
  refine ⟨h1, ?_⟩
  unfold load_dataset_met
  rw [List.mapM_cons, h1]
  rfl

/-- Claim C5: zero successfully decoded files make `load_dataset` return
the explicit absent result `None`, and the run then terminates with the
empty-dataset outcome, writing no output; in particular with both input
directories empty. -/
theorem c5_empty_dataset :
    (∀ d : List (Option (List AqRecord)), d.filterMap id = [] →
        load_dataset aqAllNa d = none) ∧
    (∀ (metD : List (Option (List MetRecord)))
        (aqD : List (Option (List AqRecord))),
        metD.filterMap id = [] ∨ aqD.filterMap id = [] →
        runPipeline metD aqD = RunOutcome.emptyDataset ∧
          wroteOutput (runPipeline metD aqD) = false) ∧
    (runPipeline [] [] = RunOutcome.emptyDataset ∧
      wroteOutput (runPipeline [] []) = false) := by
  have hgen : ∀ {α : Type} (allNa : α → Bool) (d : List (Option (List α))),
      d.filterMap id = [] → load_dataset allNa d = none := by
    intro α allNa d hd
    unfold load_dataset
    simp [hd]
  refine ⟨fun d hd => hgen _ d hd, ?_, ⟨rfl, rfl⟩⟩
  intro metD aqD h
  have hout : runPipeline metD aqD = RunOutcome.emptyDataset := by
    unfold runPipeline
    rcases h with h | h
    · rw [hgen _ _ h]
    · rw [hgen _ _ h]
      cases load_dataset metAllNa metD <;> rfl
  exact ⟨hout, by rw [hout]; rfl⟩

/-- Claim C7 counterexample: aggregation does not drop a row whose
measurement columns are all missing when its timestamp is present, and a
surviving row can have a missing timestamp, refuting both halves of the
claim on a concrete input. -/
theorem c7_counterexample :
    ¬ (∀ (d : List (Option (List AqRecord))) (t : List AqRecord),
        load_dataset aqAllNa d = some t → ∀ r ∈ t,
          ¬(r.no = none ∧ r.co = none) ∧ r.timestamp ≠ none) := by
  intro h
  have h1 := h [some [rTsOnly, rNoTs]] [rTsOnly, rNoTs] (by decide)
  exact (h1 rTsOnly (by decide)).1 ⟨rfl, rfl⟩

/-- Claim C7 as amended: `dropna(how='all')` drops exactly the rows missing
in every column including the timestamp, so every surviving aggregated row
has at least one non-missing cell, though possibly a missing timestamp. -/
theorem c7_dropna_all_columns (d : List (Option (List AqRecord)))
    (t : List AqRecord) (ht : load_dataset aqAllNa d = some t) :
    ∀ r ∈ t, aqAllNa r = false := by
  intro r hr
  unfold load_dataset at ht
  cases hd : (d.filterMap id).isEmpty with
  | true => simp [hd] at ht
  | false =>
    simp [hd] at ht
    subst ht
    obtain ⟨l, hl, hrl⟩ := List.mem_flatten.mp hr
    obtain ⟨li, _, rfl⟩ := List.mem_map.mp hl
    have := List.of_mem_filter hrl
    simpa using this

lemma leftMatches_ts (aqs : List AqRecord) (m : MetRecord) :
    ∀ row ∈ leftMatches aqs m, row.ts = m.timestamp := by
  intro row hrow
  unfold leftMatches at hrow
  split at hrow
  · rw [List.mem_singleton] at hrow
    subst hrow
    rfl
  · obtain ⟨a, _, rfl⟩ := List.mem_map.mp hrow
    rfl

lemma leftMatches_ne_nil (aqs : List AqRecord) (m : MetRecord) :
    leftMatches aqs m ≠ [] := by
  unfold leftMatches
  split
  · simp
  · rename_i hne
    simp only [ne_eq, List.map_eq_nil_iff]
    simpa [List.isEmpty_iff] using hne

lemma count_map_ts_const (l : List MergedRow) (v k : Option ℤ)
    (h : ∀ row ∈ l, row.ts = v) :
    (l.map MergedRow.ts).count k = if v = k then l.length else 0 := by
  induction l with
  | nil => simp
  | cons x xs ih =>
    have hx : x.ts = v := h x (by simp)
    have ih2 := ih (fun row hr => h row (List.mem_cons_of_mem _ hr))
    rcases eq_or_ne v k with rfl | hv
    · simp [List.count_cons, hx, ih2]
    · simp [List.count_cons, hx, ih2, hv]

lemma count_le_flatMap {α β γ : Type} [BEq γ] (f : α → List β)
    (g : β → γ) (k : γ) (x : α) : ∀ L : List α, x ∈ L →
    ((f x).map g).count k ≤ ((L.flatMap f).map g).count k := by
  intro L
  induction L with
  | nil => simp
  | cons y ys ih =>
    intro hx
    rw [List.flatMap_cons, List.map_append, List.count_append]
    rcases List.mem_cons.mp hx with rfl | hmem
    · exact Nat.le_add_right _ _
    · exact (ih hmem).trans (Nat.le_add_left _ _)

lemma length_filter_aq_ts (aqs : List AqRecord) (k : Option ℤ) :
    (aqs.filter (fun a => a.timestamp == k)).length =
      (aqs.map AqRecord.timestamp).count k := by
  induction aqs with
  | nil => simp
  | cons a l ih =>
    by_cases hk : a.timestamp = k
    · simp [List.filter_cons, hk, List.count_cons, ih]
    · simp [List.filter_cons, hk, List.count_cons, ih]

lemma count_left_part (mts : List MetRecord) (aqs : List AqRecord)
    (k : Option ℤ) :
    (mts.map MetRecord.timestamp).count k ≤
      ((mts.flatMap (leftMatches aqs)).map MergedRow.ts).count k := by
  induction mts with
  | nil => simp
  | cons m rest ih =>
    rw [List.flatMap_cons, List.map_append, List.count_append, List.map_cons,
      List.count_cons]
    have hcnt : ((leftMatches aqs m).map MergedRow.ts).count k =
        if m.timestamp = k then (leftMatches aqs m).length else 0 :=
      count_map_ts_const _ _ _ (leftMatches_ts aqs m)
    have hlen : 1 ≤ (leftMatches aqs m).length :=
      List.length_pos.mpr (leftMatches_ne_nil aqs m)
    rcases eq_or_ne m.timestamp k with heq | hne2
    · have hbeq : (m.timestamp == k) = true := by simpa using heq
      rw [hcnt, if_pos heq, hbeq]
      simp only [if_true]
      omega
    · have hbeq : (m.timestamp == k) = false := by simpa using hne2
      rw [hcnt, if_neg hne2, hbeq]
      simp only [Bool.false_eq_true, if_false]
      omega

lemma count_right_part (mts : List MetRecord) (aqs : List AqRecord)
    (k : Option ℤ) (hex : ∀ m ∈ mts, m.timestamp ≠ k) :
    (aqs.map AqRecord.timestamp).count k ≤
      (((aqs.filter fun a => mts.all fun m =>
          !(m.timestamp == a.timestamp)).map mergedOfAq).map
        MergedRow.ts).count k := by
  induction aqs with
  | nil => simp
  | cons a rest ih =>
    rw [List.map_cons, List.count_cons, List.filter_cons]
    cases hpass : (mts.all fun m => !(m.timestamp == a.timestamp)) with
    | true =>
      simp only [if_true]
      rw [List.map_cons, List.map_cons, List.count_cons]
      have hts : MergedRow.ts (mergedOfAq a) = a.timestamp := rfl
      rw [hts]
      omega
    | false =>
      simp only [Bool.false_eq_true, if_false]
      have hfail : ∃ m ∈ mts, m.timestamp = a.timestamp := by
        by_contra hcon
        push_neg at hcon
        have : (mts.all fun m => !(m.timestamp == a.timestamp)) = true := by
          rw [List.all_eq_true]
          intro m hm
          simpa using hcon m hm
        rw [this] at hpass
        cases hpass
      obtain ⟨m, hm, hts2⟩ := hfail
      have hak : (a.timestamp == k) = false := by
        have hne3 := hex m hm
        rw [hts2] at hne3
        simpa using hne3
      rw [hak]
      simp only [Bool.false_eq_true, if_false]
      omega

lemma leftPart_cover (mts : List MetRecord) (aqs : List AqRecord)
    (m : MetRecord) (hm : m ∈ mts) :
    ∃ row ∈ mts.flatMap (leftMatches aqs), row.ts = m.timestamp := by
  obtain ⟨row, hrow⟩ := List.exists_mem_of_ne_nil _ (leftMatches_ne_nil aqs m)
  exact ⟨row, List.mem_flatMap.mpr ⟨m, hm, hrow⟩, leftMatches_ts aqs m row hrow⟩

/-- Claim C8: the merge is a full outer join on the timestamp: every
timestamp of either input appears in the merged timestamp set, one-sided
rows get the other side's columns filled with missing markers, and rows
sharing a timestamp within one input are all retained (count never
drops). -/
theorem c8_outer_join :
    (∀ (mts : List MetRecord) (aqs : List AqRecord) (k : Option ℤ),
        k ∈ mts.map MetRecord.timestamp ∨ k ∈ aqs.map AqRecord.timestamp →
        k ∈ (pdMergeOuter mts aqs).map MergedRow.ts) ∧
    (∀ (mts : List MetRecord) (aqs : List AqRecord) (m : MetRecord),
        m ∈ mts → (∀ a ∈ aqs, a.timestamp ≠ m.timestamp) →
        mergedOfMet m ∈ pdMergeOuter mts aqs) ∧
    (∀ (mts : List MetRecord) (aqs : List AqRecord) (a : AqRecord),
        a ∈ aqs → (∀ m ∈ mts, m.timestamp ≠ a.timestamp) →
        mergedOfAq a ∈ pdMergeOuter mts aqs) ∧
    (∀ (mts : List MetRecord) (aqs : List AqRecord) (k : Option ℤ),
        (mts.map MetRecord.timestamp).count k ≤
          ((pdMergeOuter mts aqs).map MergedRow.ts).count k ∧
        (aqs.map AqRecord.timestamp).count k ≤
          ((pdMergeOuter mts aqs).map MergedRow.ts).count k) := by
  refine ⟨?_, ?_, ?_, ?_⟩
  · intro mts aqs k hk
    unfold pdMergeOuter
    rcases hk with hk | hk
    · obtain ⟨m, hm, rfl⟩ := List.mem_map.mp hk
      obtain ⟨row, hrowmem, hts⟩ := leftPart_cover mts aqs m hm
      exact List.mem_map.mpr ⟨row, List.mem_append_left _ hrowmem, hts⟩
    · obtain ⟨a, ha, rfl⟩ := List.mem_map.mp hk
      by_cases hex : ∃ m ∈ mts, m.timestamp = a.timestamp
      · obtain ⟨m, hm, hts⟩ := hex
        obtain ⟨row, hrowmem, hts2⟩ := leftPart_cover mts aqs m hm
        exact List.mem_map.mpr
          ⟨row, List.mem_append_left _ hrowmem, by rw [hts2, hts]⟩
      · push_neg at hex
        have hfa : a ∈ aqs.filter fun a2 =>
            mts.all fun m => !(m.timestamp == a2.timestamp) := by
          refine List.mem_filter.mpr ⟨ha, ?_⟩
          rw [List.all_eq_true]
          intro m hm
          simpa using hex m hm
        exact List.mem_map.mpr
          ⟨mergedOfAq a,
            List.mem_append_right _ (List.mem_map.mpr ⟨a, hfa, rfl⟩), rfl⟩
  · intro mts aqs m hm hnomatch
    have hfilter : aqs.filter (fun a => a.timestamp == m.timestamp) = [] := by
      rw [List.filter_eq_nil_iff]
      intro a ha
      simpa using hnomatch a ha
    have hlm : leftMatches aqs m = [mergedOfMet m] := by
      unfold leftMatches
      rw [hfilter]
      rfl
    exact List.mem_append_left _
      (List.mem_flatMap.mpr ⟨m, hm, hlm ▸ List.mem_singleton_self _⟩)
  · intro mts aqs a ha hno
    refine List.mem_append_right _ (List.mem_map.mpr ⟨a, ?_, rfl⟩)
    refine List.mem_filter.mpr ⟨ha, ?_⟩
    rw [List.all_eq_true]
    intro m hm
    simpa using hno m hm
  · intro mts aqs k
    unfold pdMergeOuter
    rw [List.map_append, List.count_append]
    constructor
    · exact (count_left_part mts aqs k).trans (Nat.le_add_right _ _)
    · by_cases hex : ∃ m ∈ mts, m.timestamp = k
      · obtain ⟨m0, hm0, hts0⟩ := hex
        subst hts0
        have hlen2 :
            (aqs.filter (fun a => a.timestamp == m0.timestamp)).length =
              (aqs.map AqRecord.timestamp).count m0.timestamp :=
          length_filter_aq_ts aqs m0.timestamp
        cases hhe : (aqs.filter
            (fun a => a.timestamp == m0.timestamp)).isEmpty with
        | true =>
          rw [List.isEmpty_iff] at hhe
          rw [hhe] at hlen2
          simp only [List.length_nil] at hlen2
          omega
        | false =>
          have hlm : leftMatches aqs m0 =
              (aqs.filter (fun a => a.timestamp == m0.timestamp)).map
                (mergedOfPair m0) := by
            unfold leftMatches
            rw [hhe]
            rfl
          have hconst : ∀ row ∈ leftMatches aqs m0,
              MergedRow.ts row = m0.timestamp := leftMatches_ts aqs m0
          have hcnt : ((leftMatches aqs m0).map MergedRow.ts).count
              m0.timestamp = (leftMatches aqs m0).length := by
            rw [count_map_ts_const _ _ _ hconst, if_pos rfl]
          have hlenlm : (leftMatches aqs m0).length =
              (aqs.filter (fun a => a.timestamp == m0.timestamp)).length := by
            rw [hlm, List.length_map]
          have hle := count_le_flatMap (leftMatches aqs) MergedRow.ts
            m0.timestamp m0 mts hm0
          calc (aqs.map AqRecord.timestamp).count m0.timestamp
              = (leftMatches aqs m0).length := by rw [← hlen2, ← hlenlm]
            _ = ((leftMatches aqs m0).map MergedRow.ts).count m0.timestamp :=
                hcnt.symm
            _ ≤ ((mts.flatMap (leftMatches aqs)).map MergedRow.ts).count
                  m0.timestamp := hle
            _ ≤ _ := Nat.le_add_right _ _
      · push_neg at hex
        exact (count_right_part mts aqs k hex).trans (Nat.le_add_left _ _)

lemma inBounds_of_filterCell (c : Col) (v : Option ℚ) (x : ℚ)
    (h : filterCell c v = some x) : InBounds c x := by
  intro lo ho hb
  cases v with
  | none => simp [filterCell] at h
  | some y =>
    by_cases hi : isInvalid c y
    · simp [filterCell, hi] at h
    · simp [filterCell, hi] at h
      subst h
      unfold isInvalid at hi
      rw [hb] at hi
      cases ho with
      | none =>
        simp at hi
        exact ⟨hi, fun u hu => by cases hu⟩
      | some u =>
        simp [not_or] at hi
        exact ⟨hi.1, fun u2 hu2 => by
          cases hu2
          exact hi.2⟩

lemma mul_length_lt_sum (lo : ℚ) (l : List ℚ) (hne : l ≠ [])
    (h : ∀ x ∈ l, lo < x) : lo * l.length < l.sum := by
  induction l with
  | nil => exact absurd rfl hne
  | cons x tl ih =>
    cases tl with
    | nil => simpa using h x (by simp)
    | cons y tl2 =>
      have ih2 := ih (by simp) (fun z hz => h z (List.mem_cons_of_mem _ hz))
      have hx := h x (by simp)
      simp only [List.sum_cons, List.length_cons] at ih2 ⊢
      push_cast at ih2 ⊢
      linarith

lemma sum_lt_mul_length (hi : ℚ) (l : List ℚ) (hne : l ≠ [])
    (h : ∀ x ∈ l, x < hi) : l.sum < hi * l.length := by
  induction l with
  | nil => exact absurd rfl hne
  | cons x tl ih =>
    cases tl with
    | nil => simpa using h x (by simp)
    | cons y tl2 =>
      have ih2 := ih (by simp) (fun z hz => h z (List.mem_cons_of_mem _ hz))
      have hx := h x (by simp)
      simp only [List.sum_cons, List.length_cons] at ih2 ⊢
      push_cast at ih2 ⊢
      linarith

lemma inBounds_colMean (rs : List Row) (c : Col) (x : ℚ)
    (hv : ∀ r ∈ rs, ValidCell c (r.cells c))
    (h : colMean rs c = some x) : InBounds c x := by
  unfold colMean at h
  cases he : (rs.filterMap (fun r => r.cells c)).isEmpty with
  | true => simp [he] at h
  | false =>
    simp only [he, Bool.false_eq_true, if_false, Option.some.injEq] at h
    intro lo ho hb
    have hne : rs.filterMap (fun r => r.cells c) ≠ [] := by
      simpa [List.isEmpty_iff] using he
    have hlen : (0 : ℚ) < (rs.filterMap (fun r => r.cells c)).length := by
      have := List.length_pos.mpr hne
      exact_mod_cast this
    have hall : ∀ v ∈ rs.filterMap (fun r => r.cells c), InBounds c v := by
      intro v hvmem
      obtain ⟨r, hr, hcell⟩ := List.mem_filterMap.mp hvmem
      exact hv r hr v hcell
    constructor
    · have hlt : ∀ v ∈ rs.filterMap (fun r => r.cells c), lo < v :=
        fun v hv2 => ((hall v hv2) lo ho hb).1
      have hsum := mul_length_lt_sum lo _ hne hlt
      rw [← h]
      rw [lt_div_iff₀ hlen]
      linarith
    · intro u hu
      have hlt : ∀ v ∈ rs.filterMap (fun r => r.cells c), v < u :=
        fun v hv2 => ((hall v hv2) lo ho hb).2 u hu
      have hsum := sum_lt_mul_length u _ hne hlt
      rw [← h]
      rw [div_lt_iff₀ hlen]
      linarith

lemma quarantineRow_cells (r : Row) (c : Col) :
    (quarantineRow r).cells c = none ∨ (quarantineRow r).cells c = r.cells c := by
  unfold quarantineRow
  split
  · cases c <;> simp
  · right
    rfl

lemma validCell_cleanedTable (t : List Row) (r : Row)
    (hr : r ∈ cleanedTable t) (c : Col) : ValidCell c (r.cells c) := by
  unfold cleanedTable quarantine at hr
  obtain ⟨r1, hr1, rfl⟩ := List.mem_map.mp hr
  unfold resample at hr1
  obtain ⟨b, hb, rfl⟩ := List.mem_map.mp hr1
  have hvalid : ∀ r2 ∈ contributors (filterTable t) b, ∀ c2 : Col,
      ValidCell c2 (r2.cells c2) := by
    intro r2 hr2 c2
    have hr2t : r2 ∈ filterTable t := List.mem_of_mem_filter hr2
    obtain ⟨r3, _, rfl⟩ := List.mem_map.mp hr2t
    intro x hx
    exact inBounds_of_filterCell c2 (r3.cells c2) x hx
  intro x hx
  rcases quarantineRow_cells (bucketRow (filterTable t) b) c with hnone | heq
  · rw [hnone] at hx
    cases hx
  · rw [heq] at hx
    exact inBounds_colMean _ _ _ (fun r2 h2 => hvalid r2 h2 c) hx

lemma filterCell_idem (c : Col) (v : Option ℚ) :
    filterCell c (filterCell c v) = filterCell c v := by
  cases v with
  | none => rfl
  | some y =>
    by_cases hi : isInvalid c y
    · simp [filterCell, hi]
    · simp [filterCell, hi]

/-- Claim C1: no cell of the cleaned output holds a value at or beyond a
bound of its thresholded column (equivalently, any such value was replaced
by the missing marker), the filter is idempotent, and an input row with
NO = 250 yields a missing NO cell in the cleaned output. -/
theorem c1_threshold_filter :
    (∀ (t : List Row) (r : Row) (c : Col) (lo : ℚ) (ho : Option ℚ) (x : ℚ),
        r ∈ cleanedTable t → colBounds c = some (lo, ho) →
        r.cells c = some x → lo < x ∧ ∀ u, ho = some u → x < u) ∧
    (∀ t : List Row, filterTable (filterTable t) = filterTable t) ∧
    (cleanedTable exC1).map (fun r => r.cells Col.no) = [none] := by
  refine ⟨?_, ?_, by decide⟩
  · intro t r c lo ho x hr hb hx
    exact validCell_cleanedTable t r hr c x hx lo ho hb
  · intro t
    unfold filterTable
    rw [List.map_map]
    apply List.map_congr_left
    intro r _
    show filterRow (filterRow r) = filterRow r
    unfold filterRow
    exact congrArg (Row.mk r.ts) (funext fun c => filterCell_idem c (r.cells c))

theorem c1_threshold_filter_witness : (-1000 : ℚ) < 10 :=
  (c1_threshold_filter.1 exW1 ((cleanedTable exW1).get ⟨0, by decide⟩)
    Col.temperature (-1000) none 10 (List.get_mem _ _ _) rfl
    (by
      simp +decide [cleanedTable, quarantine, quarantineRow, quarantineLo,
        quarantineHi, resample, bucketRow, contributors, colMean, bucketStart,
        filterTable, filterRow, filterCell, isInvalid, colBounds, exW1])).1

/-- Claim C2: every minute bucket containing at least one input timestamp
yields exactly one output row, whose timestamp is the bucket start and
whose cells are the arithmetic means of the non-missing contributions
(missing when all contributions are missing); the two example rows at
08:00:00 and 08:00:30 with temperatures 10 and 12 produce the single
08:00 row with temperature 11. -/
theorem c2_resample_mean :
    (∀ (t : List Row) (b : ℤ), (∃ r ∈ t, bucketStart r.ts = b) →
        (∃ row ∈ resample t, row.ts = b ∧
          ∀ c, row.cells c = colMean (contributors t b) c) ∧
        ((resample t).map Row.ts).count b = 1) ∧
    (cleanedTable exC2).map (fun r => (r.ts, r.cells Col.temperature)) =
      [(28800, some 11)] := by
  constructor
  · intro t b hb
    obtain ⟨r, hr, hrb⟩ := hb
    have hbmem : b ∈ (t.map (fun r => bucketStart r.ts)).dedup :=
      List.mem_dedup.mpr (List.mem_map.mpr ⟨r, hr, hrb⟩)
    constructor
    · exact ⟨bucketRow t b, List.mem_map.mpr ⟨b, hbmem, rfl⟩, rfl,
        fun c => rfl⟩
    · have hmap : (resample t).map Row.ts =
          (t.map (fun r => bucketStart r.ts)).dedup := by
        unfold resample
        rw [List.map_map]
        rw [show (Row.ts ∘ bucketRow t) = id from rfl]
        exact List.map_id _
      rw [hmap]
      exact List.count_eq_one_of_mem (List.nodup_dedup _) hbmem
  · simp +decide [cleanedTable, quarantine, quarantineRow, quarantineLo,
      quarantineHi, resample, bucketRow, contributors, colMean, bucketStart,
      filterTable, filterRow, filterCell, isInvalid, colBounds, exC2, rowA2,
      rowB2]
    norm_num

theorem c2_resample_mean_witness :
    ((resample exC2).map Row.ts).count 28800 = 1 :=
  (c2_resample_mean.1 exC2 28800 ⟨rowA2, by simp [exC2], by decide⟩).2

/-- Claim C3: every cleaned-output row timestamped inside the half-open
quarantine window [2021-02-15, 2021-04-01) has its CH4 and CO2 cells
forced to the missing marker. -/
theorem c3_quarantine (t : List Row) (r : Row) (hr : r ∈ cleanedTable t)
    (h1 : quarantineLo ≤ r.ts) (h2 : r.ts < quarantineHi) :
    r.cells Col.ch4 = none ∧ r.cells Col.co2 = none := by
  unfold cleanedTable quarantine at hr
  obtain ⟨r1, _, rfl⟩ := List.mem_map.mp hr
  by_cases hq : quarantineLo ≤ r1.ts ∧ r1.ts < quarantineHi
  · unfold quarantineRow
    rw [if_pos hq]
    exact ⟨rfl, rfl⟩
  · unfold quarantineRow at h1 h2
    rw [if_neg hq] at h1 h2
    exact absurd ⟨h1, h2⟩ hq

theorem c3_quarantine_witness :
    ((cleanedTable exC3).get ⟨0, by decide⟩).cells Col.ch4 = none ∧
    ((cleanedTable exC3).get ⟨0, by decide⟩).cells Col.co2 = none :=
  c3_quarantine exC3 _ (List.get_mem _ _ _) (by decide) (by decide)

theorem c5_empty_dataset_witness :
    load_dataset aqAllNa ([] : List (Option (List AqRecord))) = none ∧
    runPipeline [] [] = RunOutcome.emptyDataset :=
  ⟨c5_empty_dataset.1 [] rfl, (c5_empty_dataset.2.1 [] [] (Or.inl rfl)).1⟩

theorem c7_dropna_all_columns_witness : aqAllNa rTsOnly = false :=
  c7_dropna_all_columns [some [rTsOnly]] [rTsOnly] (by decide) rTsOnly
    (by decide)

theorem c8_outer_join_witness : mergedOfMet recA ∈ pdMergeOuter [recA] [] :=
  c8_outer_join.2.1 [recA] [] recA (by decide) (by simp)

theorem c10_missing_key_aborts_witness :
    load_met_file [] id id id (MetFile.ok [recA]) =
      Except.error PyExn.keyError :=
  (c10_missing_key_aborts [] id id id [recA] [] (by decide) (by decide)).1

end Cozi
